import Mathlib

/-!
# Verification of the video-statistics query pipeline

Shallow embedding of the query-interpretation and safety-validation pipeline
of the `tpsha` bot (files `bot/security.py`, `bot/parser.py`, `bot/llm.py`,
`bot/config.py`, `bot/bot.py`), together with proofs of the specified
properties.

Modelling conventions:
* Python `str` is `String` (a list of Unicode code points, as in Python).
* `str.lower` / `str.upper` are modelled on the alphabets the program works
  with (ASCII and Cyrillic); on every other code point they are the identity.
* The regex `\b` word boundary of Python `re` distinguishes word characters
  (`\w`: letters, digits, underscore); the model classifies ASCII
  alphanumerics, underscore and the Cyrillic block as word characters, which
  agrees with Python on all texts over those alphabets.
* `str.split()` splits on runs of whitespace; whitespace is modelled by
  `Char.isWhitespace` (space, tab, CR, LF), which agrees with Python on the
  program's inputs.
* The two external collaborators (the generation service and the database)
  are values of an `Env` record: the service is an optional function from the
  sanitized query to an abstract HTTP response, the database a function from
  SQL text to a scalar or an execution fault.
-/

/-- Lowercasing of a single character, as Python `str.lower` acts on the
ASCII and Cyrillic alphabets; identity elsewhere. -/
def lowerChar (c : Char) : Char :=
  match c with
  | 'A' => 'a' | 'B' => 'b' | 'C' => 'c' | 'D' => 'd' | 'E' => 'e'
  | 'F' => 'f' | 'G' => 'g' | 'H' => 'h' | 'I' => 'i' | 'J' => 'j'
  | 'K' => 'k' | 'L' => 'l' | 'M' => 'm' | 'N' => 'n' | 'O' => 'o'
  | 'P' => 'p' | 'Q' => 'q' | 'R' => 'r' | 'S' => 's' | 'T' => 't'
  | 'U' => 'u' | 'V' => 'v' | 'W' => 'w' | 'X' => 'x' | 'Y' => 'y'
  | 'Z' => 'z'
  | 'А' => 'а' | 'Б' => 'б' | 'В' => 'в' | 'Г' => 'г' | 'Д' => 'д'
  | 'Е' => 'е' | 'Ж' => 'ж' | 'З' => 'з' | 'И' => 'и' | 'Й' => 'й'
  | 'К' => 'к' | 'Л' => 'л' | 'М' => 'м' | 'Н' => 'н' | 'О' => 'о'
  | 'П' => 'п' | 'Р' => 'р' | 'С' => 'с' | 'Т' => 'т' | 'У' => 'у'
  | 'Ф' => 'ф' | 'Х' => 'х' | 'Ц' => 'ц' | 'Ч' => 'ч' | 'Ш' => 'ш'
  | 'Щ' => 'щ' | 'Ъ' => 'ъ' | 'Ы' => 'ы' | 'Ь' => 'ь' | 'Э' => 'э'
  | 'Ю' => 'ю' | 'Я' => 'я' | 'Ё' => 'ё'
  | _ => c

/-- Uppercasing of a single character, as Python `str.upper` acts on the
ASCII and Cyrillic alphabets; identity elsewhere. -/
def upperChar (c : Char) : Char :=
  match c with
  | 'a' => 'A' | 'b' => 'B' | 'c' => 'C' | 'd' => 'D' | 'e' => 'E'
  | 'f' => 'F' | 'g' => 'G' | 'h' => 'H' | 'i' => 'I' | 'j' => 'J'
  | 'k' => 'K' | 'l' => 'L' | 'm' => 'M' | 'n' => 'N' | 'o' => 'O'
  | 'p' => 'P' | 'q' => 'Q' | 'r' => 'R' | 's' => 'S' | 't' => 'T'
  | 'u' => 'U' | 'v' => 'V' | 'w' => 'W' | 'x' => 'X' | 'y' => 'Y'
  | 'z' => 'Z'
  | 'а' => 'А' | 'б' => 'Б' | 'в' => 'В' | 'г' => 'Г' | 'д' => 'Д'
  | 'е' => 'Е' | 'ж' => 'Ж' | 'з' => 'З' | 'и' => 'И' | 'й' => 'Й'
  | 'к' => 'К' | 'л' => 'Л' | 'м' => 'М' | 'н' => 'Н' | 'о' => 'О'
  | 'п' => 'П' | 'р' => 'Р' | 'с' => 'С' | 'т' => 'Т' | 'у' => 'У'
  | 'ф' => 'Ф' | 'х' => 'Х' | 'ц' => 'Ц' | 'ч' => 'Ч' | 'ш' => 'Ш'
  | 'щ' => 'Щ' | 'ъ' => 'Ъ' | 'ы' => 'Ы' | 'ь' => 'Ь' | 'э' => 'Э'
  | 'ю' => 'Ю' | 'я' => 'Я' | 'ё' => 'Ё'
  | _ => c

/-- Word characters for the regex `\b` boundary (`\w`): ASCII alphanumerics,
underscore, and the Cyrillic block U+0400–U+04FF. -/
def isWordChar (c : Char) : Bool :=
  c.isAlphanum || c = '_' || (0x400 ≤ c.toNat && c.toNat ≤ 0x4FF)

/-- Python `str.lower` (on the modelled alphabets). -/
def pyToLower (s : String) : String := ⟨s.data.map lowerChar⟩

/-- Python `str.upper` (on the modelled alphabets). -/
def pyToUpper (s : String) : String := ⟨s.data.map upperChar⟩

/-- Strip leading and trailing whitespace from a character list
(Python `str.strip`). -/
def stripL (l : List Char) : List Char :=
  ((l.dropWhile Char.isWhitespace).reverse.dropWhile Char.isWhitespace).reverse

/-- Python `str.strip`. -/
def pyStrip (s : String) : String := ⟨stripL s.data⟩

/-- Substring containment on character lists (Python `in` on `str`). -/
def containsSubL (pat : List Char) : List Char → Bool
  | [] => pat.isPrefixOf []
  | c :: rest => pat.isPrefixOf (c :: rest) || containsSubL pat rest

/-- Python `pat in s` for strings. -/
def containsSub (s pat : String) : Bool := containsSubL pat.data s.data

/-- Test whether `w` matches at the head of `l`, and the character following the match (if
any) is not a word character — the suffix test of the regex `w\b` at a given
position. -/
def isMatchHere (w l : List Char) : Bool :=
  match w, l with
  | [], [] => true
  | [], c :: _ => !isWordChar c
  | _ :: _, [] => false
  | a :: w', c :: l' => a = c && isMatchHere w' l'

/-- Scan of `re.search(r'\b w \b', text)`: try a whole-word match at every
position; `prevW` records whether the previous character was a word
character (the prefix half of the `\b` boundary). -/
def wwScan (w : List Char) : Bool → List Char → Bool
  | prevW, l =>
    (!prevW && isMatchHere w l) ||
      match l with
      | [] => false
      | c :: rest => wwScan w (isWordChar c) rest

/-- Holds when `re.search(r'\b' + w + r'\b', t)` succeeds, for a pattern `w` consisting
of word characters. -/
def containsWholeWord (t w : String) : Bool := wwScan w.data false t.data

/-- Maximal runs of characters satisfying `p`; the accumulator holds the
current run, reversed. -/
def runsAux (p : Char → Bool) : List Char → List Char → List (List Char)
  | [], acc => if acc = [] then [] else [acc.reverse]
  | c :: rest, acc =>
    if p c then runsAux p rest (c :: acc)
    else if acc = [] then runsAux p rest []
    else acc.reverse :: runsAux p rest []

/-- Maximal runs of characters satisfying `p` in a list. -/
def runs (p : Char → Bool) (l : List Char) : List (List Char) := runsAux p l []

/-- Join a list of words with a separator (Python `sep.join`). -/
def joinSep (sep : List Char) : List (List Char) → List Char
  | [] => []
  | [x] => x
  | x :: y :: rest => x ++ sep ++ joinSep sep (y :: rest)

/-! ## `bot/config.py` -/

/-- Constant `MAX_QUERY_LENGTH` from `bot/config.py`. -/
def MAX_QUERY_LENGTH : Nat := 500

/-- Constant `ALLOWED_KEYWORDS` from `bot/config.py`. -/
def ALLOWED_KEYWORDS : List String :=
  ["сколько", "видео", "просмотров", "лайков", "комментариев",
   "жалоб", "креатора", "выросло", "выросли", "прирост",
   "разных", "новых", "всего", "больше", "меньше", "системе",
   "времени", "включительно", "с", "по", "на", "сумме"]

/-- Constant `FORBIDDEN_WORDS` from `bot/config.py`. -/
def FORBIDDEN_WORDS : List String :=
  ["drop", "delete", "insert", "update", "truncate",
   "alter", "create", "grant", "revoke", "exec",
   "password", "token", "secret", "key", "admin"]

/-! ## `bot/security.py` (`QueryValidator`) -/

/-- Method `QueryValidator.validate_query_length`. -/
def validate_query_length (query : String) : Bool :=
  query.length ≤ MAX_QUERY_LENGTH

/-- Method `QueryValidator.sanitize_input`: `' '.join(query.split())`. -/
def sanitize_input (query : String) : String :=
  ⟨joinSep [' '] (runs (fun c => !c.isWhitespace) query.data)⟩

/-- Method `QueryValidator.check_forbidden_words`: `True` iff no deny-list word
occurs as a whole word (case-insensitively) in the query. -/
def check_forbidden_words (query : String) : Bool :=
  FORBIDDEN_WORDS.all (fun w => !containsWholeWord (pyToLower query) w)

/-- Method `QueryValidator.validate_intent`: some allow-list keyword occurs as a
substring of the lowercased query. -/
def validate_intent (query : String) : Bool :=
  ALLOWED_KEYWORDS.any (fun kw => containsSub (pyToLower query) kw)

/-- Holds when `re.match(r'^\s*SELECT\b', sql_upper)` succeeds. -/
def selectWordStart (l : List Char) : Bool :=
  isMatchHere "SELECT".data (l.dropWhile Char.isWhitespace)

/-- The first deny-list word occurring as a whole word in `sql`
(case-insensitive), in deny-list order — the loop of `validate_sql`. -/
def findForbidden (sql : String) : Option String :=
  FORBIDDEN_WORDS.find? (fun w => containsWholeWord (pyToLower sql) w)

/-- Method `QueryValidator.validate_sql`: validity flag and reason, exactly the
check sequence of `bot/security.py`. -/
def validate_sql (sql : String) : Bool × String :=
  if sql = "" then (false, "Пустой SQL")
  else if !selectWordStart (pyStrip (pyToUpper sql)).data then
    (false, "Разрешены только SELECT-запросы")
  else
    match findForbidden sql with
    | some w => (false, "Обнаружена запрещённая операция: " ++ pyToUpper w)
    | none =>
      if (sql.data.filter (fun c => c = ';')).length > 1 then
        (false, "Обнаружено несколько запросов")
      else if containsSub sql "--" || containsSub sql "/*" then
        (false, "Обнаружены SQL-комментарии")
      else (true, "OK")

/-! ## `bot/parser.py` (`QueryParser`) -/

/-- Method `QueryParser.parse_query`: the rule-based translator. The source is a
deliberate one-template stub — только "сколько всего видео". -/
def parse_query (query : String) : Option String :=
  let q := pyStrip (pyToLower query)
  if containsSub q "сколько всего видео" then
    some "SELECT COUNT(*) FROM videos"
  else none

/-! ## `bot/llm.py` (`DeepSeekLLM`)

`generate_sql` performs one HTTP call; everything that can come back over
the wire is a constructor of `LLMResponse`, and the deterministic
post-processing of the body is embedded below.  A request exception
(including the 30-second timeout) and a malformed response body are caught
by the `except` block of the source and yield no result. -/

/-- The backtick character (U+0060). -/
def backtick : Char := Char.ofNat 96

/-- Outcome of the HTTP call to the generation service. -/
inductive LLMResponse where
  | timeout
  | httpError (status : Nat)
  | malformed
  | success (content : String)

/-- The five-character head of a fence match: three backticks, `s`, `q`
(letters case-insensitive). -/
def isFenceStart (b1 b2 b3 c1 c2 : Char) : Bool :=
  b1 = backtick && b2 = backtick && b3 = backtick
    && lowerChar c1 = 's' && lowerChar c2 = 'q'

/-- The substitution `re.sub(r'```sql?\n?', '', s, flags=re.IGNORECASE)`: delete every
(leftmost, non-overlapping, greedy) match.  A match is three backticks,
`s`, `q`, an optional `l` and an optional newline (letters
case-insensitive); after a match the scan resumes past it, otherwise it
advances one character. -/
def removeFences (l : List Char) : List Char :=
  match l with
  | b1 :: b2 :: b3 :: c1 :: c2 :: c3 :: c4 :: rest =>
    if isFenceStart b1 b2 b3 c1 c2 then
      if lowerChar c3 = 'l' then
        if c4 = '\n' then removeFences rest
        else removeFences (c4 :: rest)
      else if c3 = '\n' then removeFences (c4 :: rest)
      else removeFences (c3 :: c4 :: rest)
    else b1 :: removeFences (b2 :: b3 :: c1 :: c2 :: c3 :: c4 :: rest)
  | [b1, b2, b3, c1, c2, c3] =>
    if isFenceStart b1 b2 b3 c1 c2 then
      if lowerChar c3 = 'l' then []
      else if c3 = '\n' then []
      else [c3]
    else b1 :: removeFences [b2, b3, c1, c2, c3]
  | [b1, b2, b3, c1, c2] =>
    if isFenceStart b1 b2 b3 c1 c2 then []
    else b1 :: removeFences [b2, b3, c1, c2]
  | b1 :: rest => b1 :: removeFences rest
  | [] => []

/-- The replacement `s.replace('```', '')`. -/
def removeTriple (l : List Char) : List Char :=
  match l with
  | c :: c2 :: c3 :: rest2 =>
    if c = backtick && c2 = backtick && c3 = backtick then removeTriple rest2
    else c :: removeTriple (c2 :: c3 :: rest2)
  | c :: rest => c :: removeTriple rest
  | [] => []

/-- Post-processing of a successful response body in
`DeepSeekLLM.generate_sql`: strip, drop code-fence markup, strip again. -/
def cleanLLMOutput (content : String) : String :=
  ⟨stripL (removeTriple (removeFences (stripL content.data)))⟩

/-- Adapter `DeepSeekLLM.generate_sql` as a function of the service response. -/
def generate_sql (resp : LLMResponse) : Option String :=
  match resp with
  | .timeout => none
  | .httpError _ => none
  | .malformed => none
  | .success content =>
    let sql := cleanLLMOutput content
    if "SELECT".data.isPrefixOf (pyToUpper sql).data then some sql else none

/-! ## `bot/bot.py` (`VideoStatsBot.process_query`) -/

/-- Message `MESSAGES['invalid_intent']`. -/
def MSG_invalid_intent : String :=
  "Я отвечаю только на вопросы о статистике видео. Попробуйте переформулировать вопрос."

/-- Message `MESSAGES['invalid_sql']`. -/
def MSG_invalid_sql : String :=
  "Не удалось обработать запрос. Попробуйте другой вопрос."

/-- Message `MESSAGES['error']`. -/
def MSG_error : String :=
  "Произошла ошибка. Попробуйте позже."

/-- Message `MESSAGES['too_long']`. -/
def MSG_too_long : String :=
  "Вопрос слишком длинный. Сформулируйте короче."

/-- Which translator produced the candidate SQL (`method` in the source). -/
inductive Source where
  | generative
  | ruleBased
deriving DecidableEq

/-- Pipeline events, in the order `process_query` performs them; the trace
of a run records which stages ran and with what data. -/
inductive Step where
  | LengthCheck
  | Sanitize
  | ForbiddenScan
  | IntentCheck
  | GenAttempt
  | ParserAttempt
  | Chosen (source : Source) (sql : String)
  | DbExecute (sql : String)
deriving DecidableEq

/-- External collaborators of one request: the optional generation service
(`self.llm`, present iff an API key is configured), as a map from the
sanitized query to the service response; and the database
(`conn.fetchval`), as a map from SQL text to a nullable scalar or an
execution fault carrying its diagnostic text. -/
structure Env where
  llm : Option (String → LLMResponse)
  db : String → Except String (Option Int)

/-- Python truthiness of `sql` after a translator ran (`if sql:`):
`None` and the empty string are falsy. -/
def pyTruthy : Option String → Bool
  | none => false
  | some s => s ≠ ""

/-- Value of `result if result else 0`: Python truthiness of the scalar
(`None` and `0` are falsy). -/
def execValue (r : Option Int) : Int :=
  match r with
  | none => 0
  | some n => if n ≠ 0 then n else 0

/-- Rendering `str(result)` for the nullable scalar. -/
def pyStr (r : Option Int) : String :=
  match r with
  | none => "None"
  | some n => toString n

/-- The rule-based fallback half of the translation stage: called when the
generative result was falsy.  Returns the new trace events and the chosen
SQL with its source, if any. -/
def ruleFallback (t0 : List Step) (q : String) : List Step × Option (String × Source) :=
  match parse_query q with
  | some s =>
    if s ≠ "" then (t0 ++ [Step.ParserAttempt, Step.Chosen .ruleBased s], some (s, .ruleBased))
    else (t0 ++ [Step.ParserAttempt], none)
  | none => (t0 ++ [Step.ParserAttempt], none)

/-- The translation stage of `process_query`: try the generative service
first (when configured), else the rule-based translator. -/
def translateStage (env : Env) (q : String) : List Step × Option (String × Source) :=
  match env.llm with
  | some f =>
    match generate_sql (f q) with
    | some s =>
      if s ≠ "" then ([Step.GenAttempt, Step.Chosen .generative s], some (s, .generative))
      else ruleFallback [Step.GenAttempt] q
    | none => ruleFallback [Step.GenAttempt] q
  | none => ruleFallback [] q

/-- Validation and execution of the chosen SQL: the final stage of
`process_query`. -/
def execStage (env : Env) (sql : String) : List Step × (Int × Bool × String) :=
  if (validate_sql sql).1 then
    match env.db sql with
    | .ok r => ([Step.DbExecute sql], (execValue r, true, pyStr r))
    | .error _ => ([Step.DbExecute sql], (0, false, MSG_error))
  else ([], (0, false, MSG_invalid_sql))

/-- The trace of the four input gates once all of them passed. -/
def gateTrace : List Step :=
  [Step.LengthCheck, Step.Sanitize, Step.ForbiddenScan, Step.IntentCheck]

/-- Orchestrator `VideoStatsBot.process_query`, returning the trace of stages run and
the `(value, success, message)` triple the source returns. -/
def process_query (env : Env) (query : String) : List Step × (Int × Bool × String) :=
  if query = "" then ([], (0, false, MSG_invalid_intent))
  else if !validate_query_length query then ([Step.LengthCheck], (0, false, MSG_too_long))
  else if !check_forbidden_words (sanitize_input query) then
    ([Step.LengthCheck, Step.Sanitize, Step.ForbiddenScan], (0, false, MSG_invalid_intent))
  else if !validate_intent (sanitize_input query) then
    (gateTrace, (0, false, MSG_invalid_intent))
  else
    match (translateStage env (sanitize_input query)).2 with
    | none =>
      (gateTrace ++ (translateStage env (sanitize_input query)).1, (0, false, MSG_invalid_sql))
    | some (sql, _src) =>
      (gateTrace ++ (translateStage env (sanitize_input query)).1 ++ (execStage env sql).1,
        (execStage env sql).2)

/-! ## Run decomposition lemmas

`check_forbidden_words` is applied by the orchestrator to the *sanitized*
text.  To relate a whole-word occurrence in the raw text to one in the
sanitized text we characterise the regex scan through `runs isWordChar`
(the maximal word-character runs of the text) and show whitespace
collapsing preserves those runs. -/

theorem runsAux_mid (p : Char → Bool) (l : List Char) :
    ∀ acc : List Char, acc ≠ [] →
      runsAux p l acc = (acc.reverse ++ l.takeWhile p) :: runs p (l.dropWhile p) := by
  induction l with
  | nil =>
    intro acc h
    simp [runsAux, h, runs]
  | cons c rest ih =>
    intro acc h
    by_cases hc : p c
    · rw [runsAux, if_pos hc, ih (c :: acc) (by simp)]
      simp [hc, List.takeWhile_cons, List.dropWhile_cons]
    · rw [runsAux, if_neg hc, if_neg h]
      simp only [List.takeWhile_cons, List.dropWhile_cons, hc, if_neg, Bool.false_eq_true,
        ite_false]
      simp [runs, runsAux, hc]

theorem runs_cons_pos (p : Char → Bool) (c : Char) (l : List Char) (hc : p c = true) :
    runs p (c :: l) = (c :: l.takeWhile p) :: runs p (l.dropWhile p) := by
  rw [runs, runsAux, if_pos hc, runsAux_mid p l [c] (by simp)]
  simp

theorem runs_cons_neg (p : Char → Bool) (c : Char) (l : List Char) (hc : p c = false) :
    runs p (c :: l) = runs p l := by
  rw [runs, runsAux]
  simp [hc, runs]

theorem runsAux_append_break (p : Char → Bool) (c : Char) (hc : p c = false)
    (b : List Char) :
    ∀ (a acc : List Char), runsAux p (a ++ c :: b) acc = runsAux p a acc ++ runs p b := by
  intro a
  induction a with
  | nil =>
    intro acc
    by_cases h : acc = []
    · subst h
      simp [runsAux, hc, runs]
    · simp [runsAux, hc, h, runs]
  | cons d a' ih =>
    intro acc
    by_cases hd : p d
    · simp only [List.cons_append, runsAux, if_pos hd]
      exact ih (d :: acc)
    · by_cases h : acc = []
      · subst h
        simp only [List.cons_append, runsAux, if_neg hd, if_pos rfl]
        exact ih []
      · simp only [List.cons_append, runsAux, if_neg hd, if_neg h, List.cons_append]
        congr 1
        exact ih []

theorem runs_append_break (p : Char → Bool) (c : Char) (hc : p c = false)
    (a b : List Char) : runs p (a ++ c :: b) = runs p a ++ runs p b :=
  runsAux_append_break p c hc b a []

theorem whitespace_not_word (c : Char) (h : c.isWhitespace = true) :
    isWordChar c = false := by
  have : c = ' ' ∨ c = '\t' ∨ c = '\r' ∨ c = '\n' := by
    simp only [Char.isWhitespace, Bool.or_eq_true, decide_eq_true_eq] at h
    tauto
  rcases this with h | h | h | h <;> subst h <;> decide

theorem runsAux_flatMap_word (l : List Char) :
    ∀ acc : List Char,
      (runsAux (fun c => !c.isWhitespace) l acc).flatMap (runs isWordChar)
        = runs isWordChar (acc.reverse ++ l) := by
  induction l with
  | nil =>
    intro acc
    by_cases h : acc = []
    · subst h; simp [runsAux, runs]
    · simp [runsAux, h]
  | cons d rest ih =>
    intro acc
    by_cases hd : d.isWhitespace
    · have hw : isWordChar d = false := whitespace_not_word d hd
      rw [runsAux]
      simp only [hd, Bool.not_true, Bool.false_eq_true, if_false]
      by_cases h : acc = []
      · subst h
        rw [if_pos rfl, ih []]
        simp [runs_cons_neg _ _ _ hw]
      · rw [if_neg h]
        simp only [List.flatMap_cons]
        rw [ih [], runs_append_break isWordChar d hw]
        simp
    · rw [runsAux]
      simp only [hd, Bool.not_false, if_true]
      rw [ih (d :: acc)]
      simp

theorem word_runs_split (l : List Char) :
    (runs (fun c => !c.isWhitespace) l).flatMap (runs isWordChar) = runs isWordChar l := by
  have := runsAux_flatMap_word l []
  simpa [runs] using this

theorem runs_word_joinSep (ps : List (List Char)) :
    runs isWordChar (joinSep [' '] ps) = ps.flatMap (runs isWordChar) := by
  induction ps with
  | nil => simp [joinSep, runs, runsAux]
  | cons x ps ih =>
    cases ps with
    | nil => simp [joinSep]
    | cons y rest =>
      have hsp : isWordChar ' ' = false := by decide
      have : x ++ [' '] ++ joinSep [' '] (y :: rest) = x ++ ' ' :: joinSep [' '] (y :: rest) := by
        simp
      rw [joinSep, this, runs_append_break isWordChar ' ' hsp, ih]
      simp

theorem word_runs_sanitize (q : String) :
    runs isWordChar (sanitize_input q).data = runs isWordChar q.data := by
  show runs isWordChar (joinSep [' '] (runs (fun c => !c.isWhitespace) q.data))
      = runs isWordChar q.data
  rw [runs_word_joinSep, word_runs_split]

theorem lowerChar_isWhitespace (c : Char) :
    (lowerChar c).isWhitespace = c.isWhitespace := by
  unfold lowerChar
  split <;> rfl

theorem runsAux_map (p : Char → Bool) (f : Char → Char)
    (hf : ∀ c, p (f c) = p c) (l : List Char) :
    ∀ acc : List Char,
      runsAux p (l.map f) (acc.map f) = (runsAux p l acc).map (List.map f) := by
  induction l with
  | nil =>
    intro acc
    by_cases h : acc = []
    · subst h; simp [runsAux]
    · simp [runsAux, h, List.map_eq_nil_iff]
  | cons c rest ih =>
    intro acc
    by_cases hc : p c
    · simp only [List.map_cons, runsAux, hf c, hc, if_true]
      have := ih (c :: acc)
      simpa using this
    · simp only [List.map_cons, runsAux, hf c, hc, Bool.false_eq_true, if_false,
        List.map_eq_nil_iff]
      by_cases h : acc = []
      · subst h
        simp only [if_pos rfl, List.map_nil]
        have := ih []
        simpa using this
      · simp only [h, if_neg, if_false, List.map_cons, List.map_reverse]
        have := ih []
        simp only [List.map_nil] at this
        rw [this]

theorem runs_map (p : Char → Bool) (f : Char → Char)
    (hf : ∀ c, p (f c) = p c) (l : List Char) :
    runs p (l.map f) = (runs p l).map (List.map f) := by
  have := runsAux_map p f hf l []
  simpa [runs] using this

theorem joinSep_map (f : Char → Char) (sep : List Char) (ps : List (List Char)) :
    (joinSep sep ps).map f = joinSep (sep.map f) (ps.map (List.map f)) := by
  induction ps with
  | nil => simp [joinSep]
  | cons x ps ih =>
    cases ps with
    | nil => simp [joinSep]
    | cons y rest =>
      simp only [joinSep, List.map_append, List.map_cons]
      rw [ih]
      simp

theorem sanitize_lower_comm (q : String) :
    pyToLower (sanitize_input q) = sanitize_input (pyToLower q) := by
  show (⟨(sanitize_input q).data.map lowerChar⟩ : String)
      = ⟨joinSep [' '] (runs (fun c => !c.isWhitespace) (pyToLower q).data)⟩
  apply congrArg String.mk
  show (joinSep [' '] (runs (fun c => !c.isWhitespace) q.data)).map lowerChar
      = joinSep [' '] (runs (fun c => !c.isWhitespace) (q.data.map lowerChar))
  rw [joinSep_map, runs_map (fun c => !c.isWhitespace) lowerChar
    (fun c => by simp only [lowerChar_isWhitespace])]
  rfl

theorem isMatchHere_iff_takeWhile (w : List Char) (hw : w.all isWordChar = true) :
    ∀ l : List Char, (isMatchHere w l = true ↔ l.takeWhile isWordChar = w) := by
  induction w with
  | nil =>
    intro l
    cases l with
    | nil => simp [isMatchHere]
    | cons c l' =>
      by_cases hc : isWordChar c
      · simp [isMatchHere, List.takeWhile_cons, hc]
      · simp [isMatchHere, List.takeWhile_cons, hc]
  | cons a w' ih =>
    have ha : isWordChar a = true := by
      simp only [List.all_cons, Bool.and_eq_true] at hw
      exact hw.1
    have hw' : w'.all isWordChar = true := by
      simp only [List.all_cons, Bool.and_eq_true] at hw
      exact hw.2
    intro l
    cases l with
    | nil => simp [isMatchHere]
    | cons c l' =>
      simp only [isMatchHere, Bool.and_eq_true, decide_eq_true_eq, List.takeWhile_cons]
      by_cases hac : a = c
      · subst hac
        rw [if_pos ha]
        simp [ih hw' l']
      · constructor
        · rintro ⟨h, _⟩
          exact absurd h hac
        · intro h
          by_cases hc : isWordChar c
          · rw [if_pos hc] at h
            injection h with h1 _
            exact absurd h1.symm hac
          · rw [if_neg hc] at h
            exact absurd h (by simp)

theorem wwScan_iff_runs (w : List Char) (hw : w.all isWordChar = true) (hne : w ≠ []) :
    ∀ (l : List Char) (prevW : Bool),
      (wwScan w prevW l = true ↔
        w ∈ runs isWordChar (if prevW then l.dropWhile isWordChar else l)) := by
  intro l
  induction l with
  | nil =>
    intro prevW
    have hm : isMatchHere w [] = false := by
      cases w with
      | nil => exact absurd rfl hne
      | cons a w' => rfl
    have hscan : wwScan w prevW [] = (!prevW && isMatchHere w []) := by
      rw [wwScan]
      simp
    rw [hscan, hm]
    cases prevW <;> simp [runs, runsAux]
  | cons c rest ih =>
    intro prevW
    have hscan : wwScan w prevW (c :: rest)
        = ((!prevW && isMatchHere w (c :: rest)) || wwScan w (isWordChar c) rest) := rfl
    rw [hscan]
    by_cases hc : isWordChar c
    · cases prevW with
      | false =>
        rw [if_neg (show ¬(false = true) by simp), runs_cons_pos isWordChar c rest hc]
        simp only [Bool.not_false, Bool.true_and, Bool.or_eq_true, List.mem_cons]
        constructor
        · rintro (h | h)
          · left
            have := (isMatchHere_iff_takeWhile w hw (c :: rest)).1 h
            rw [List.takeWhile_cons, if_pos hc] at this
            exact this.symm
          · right
            rw [hc] at h
            have := (ih true).1 h
            simpa using this
        · rintro (h | h)
          · left
            apply (isMatchHere_iff_takeWhile w hw (c :: rest)).2
            rw [List.takeWhile_cons, if_pos hc]
            exact h.symm
          · right
            rw [hc]
            apply (ih true).2
            simpa using h
      | true =>
        simp only [Bool.not_true, Bool.false_and, Bool.false_or, if_true]
        rw [hc, List.dropWhile_cons, if_pos hc]
        have := ih true
        simpa using this
    · have hcf : isWordChar c = false := by simpa using hc
      have hmh : isMatchHere w (c :: rest) = false := by
        by_contra hm
        have hm' : isMatchHere w (c :: rest) = true := by simpa using hm
        have := (isMatchHere_iff_takeWhile w hw (c :: rest)).1 hm'
        rw [List.takeWhile_cons, if_neg hc] at this
        exact hne this.symm
      cases prevW with
      | false =>
        rw [hmh, hcf, if_neg (show ¬(false = true) by simp)]
        simp only [Bool.not_false, Bool.true_and, Bool.and_false, Bool.false_or,
          Bool.or_false]
        rw [runs_cons_neg isWordChar c rest hcf]
        have := ih false
        simpa using this
      | true =>
        rw [hcf]
        simp only [Bool.not_true, Bool.false_and, Bool.false_or, if_true]
        rw [List.dropWhile_cons, if_neg hc, runs_cons_neg isWordChar c rest hcf]
        have := ih false
        simpa using this

theorem containsWholeWord_iff_runs (t w : String)
    (hw : w.data.all isWordChar = true) (hne : w.data ≠ []) :
    containsWholeWord t w = true ↔ w.data ∈ runs isWordChar t.data := by
  have := wwScan_iff_runs w.data hw hne t.data false
  simpa [containsWholeWord] using this

theorem forbidden_word_shape :
    ∀ w ∈ FORBIDDEN_WORDS, w.data ≠ [] ∧ w.data.all isWordChar = true := by decide

theorem containsWholeWord_sanitize (t w : String) (hw : w ∈ FORBIDDEN_WORDS)
    (h : containsWholeWord (pyToLower t) w = true) :
    containsWholeWord (pyToLower (sanitize_input t)) w = true := by
  obtain ⟨hne, hall⟩ := forbidden_word_shape w hw
  rw [containsWholeWord_iff_runs _ _ hall hne] at h ⊢
  rw [sanitize_lower_comm, word_runs_sanitize (pyToLower t)]
  exact h

theorem check_forbidden_false_iff (t : String) :
    check_forbidden_words t = false
      ↔ ∃ w ∈ FORBIDDEN_WORDS, containsWholeWord (pyToLower t) w = true := by
  rw [← Bool.not_eq_true]
  simp [check_forbidden_words, List.all_eq_true]

theorem check_forbidden_sanitize_false (t : String)
    (h : check_forbidden_words t = false) :
    check_forbidden_words (sanitize_input t) = false := by
  rw [check_forbidden_false_iff] at h ⊢
  obtain ⟨w, hwmem, hw⟩ := h
  exact ⟨w, hwmem, containsWholeWord_sanitize t w hwmem hw⟩

/-! ## Pipeline lemmas -/

theorem exec_mem_execStage (env : Env) (sql s : String)
    (h : Step.DbExecute s ∈ (execStage env sql).1) :
    (validate_sql sql).1 = true ∧ s = sql := by
  unfold execStage at h
  by_cases hv : (validate_sql sql).1
  · rw [if_pos hv] at h
    cases hdb : env.db sql with
    | ok r =>
      rw [hdb] at h
      simp only [List.mem_singleton, Step.DbExecute.injEq] at h
      exact ⟨hv, h⟩
    | error e =>
      rw [hdb] at h
      simp only [List.mem_singleton, Step.DbExecute.injEq] at h
      exact ⟨hv, h⟩
  · rw [if_neg hv] at h
    simp at h

theorem no_exec_in_ruleFallback (t0 : List Step) (q s : String)
    (h0 : Step.DbExecute s ∉ t0) : Step.DbExecute s ∉ (ruleFallback t0 q).1 := by
  unfold ruleFallback
  cases hp : parse_query q with
  | none => simp [h0]
  | some r =>
    by_cases hr : r = ""
    · simp [hr, h0]
    · simp [hr, h0]

theorem no_exec_in_translateStage (env : Env) (q s : String) :
    Step.DbExecute s ∉ (translateStage env q).1 := by
  unfold translateStage
  cases hl : env.llm with
  | none => simpa using no_exec_in_ruleFallback [] q s (by simp)
  | some f =>
    dsimp only
    cases hg : generate_sql (f q) with
    | none =>
      simpa using no_exec_in_ruleFallback [Step.GenAttempt] q s (by simp)
    | some r =>
      by_cases hr : r = ""
      · simpa [hr] using no_exec_in_ruleFallback [Step.GenAttempt] q s (by simp)
      · simp [hr]

theorem process_query_exec_valid (env : Env) (query sql : String)
    (h : Step.DbExecute sql ∈ (process_query env query).1) :
    (validate_sql sql).1 = true := by
  unfold process_query at h
  by_cases h0 : query = ""
  · rw [if_pos h0] at h
    simp at h
  · rw [if_neg h0] at h
    by_cases h1 : validate_query_length query
    · rw [if_neg (by simp [h1])] at h
      by_cases h2 : check_forbidden_words (sanitize_input query)
      · rw [if_neg (by simp [h2])] at h
        by_cases h3 : validate_intent (sanitize_input query)
        · rw [if_neg (by simp [h3])] at h
          cases htc : (translateStage env (sanitize_input query)).2 with
          | none =>
            rw [htc] at h
            simp only [List.mem_append] at h
            rcases h with h | h
            · simp [gateTrace] at h
            · exact absurd h (no_exec_in_translateStage env (sanitize_input query) sql)
          | some pair =>
            rw [htc] at h
            obtain ⟨chosenSql, src⟩ := pair
            simp only [List.mem_append] at h
            rcases h with (h | h) | h
            · simp [gateTrace] at h
            · exact absurd h (no_exec_in_translateStage env (sanitize_input query) sql)
            · obtain ⟨hv, heq⟩ := exec_mem_execStage env chosenSql sql h
              rw [heq]
              exact hv
        · rw [if_pos (by simp [h3])] at h
          simp [gateTrace] at h
      · rw [if_pos (by simp [h2])] at h
        simp at h
    · rw [if_pos (by simp [h1])] at h
      simp at h

theorem forbidden_invalidates (sql w : String) (hmem : w ∈ FORBIDDEN_WORDS)
    (h : containsWholeWord (pyToLower sql) w = true) :
    (validate_sql sql).1 = false := by
  have hfind : findForbidden sql ≠ none := by
    intro hn
    rw [findForbidden, List.find?_eq_none] at hn
    have := hn w hmem
    simp [h] at this
  unfold validate_sql
  by_cases h0 : sql = ""
  · rw [if_pos h0]
  · rw [if_neg h0]
    by_cases hsel : selectWordStart (pyStrip (pyToUpper sql)).data
    · rw [if_neg (by simp [hsel])]
      cases hf : findForbidden sql with
      | none => exact absurd hf hfind
      | some w' => rfl
    · rw [if_pos (by simp [hsel])]

/-! ## The claims -/

/-- C1: for every request, the database execution step is reached only for a
SQL string on which `validate_sql` returned the valid verdict, whichever
translator produced it; and a SQL containing the deny-listed token `drop`
as a whole word is never executed. -/
theorem claim_C1_exec_only_validated (env : Env) (query sql : String) :
    (Step.DbExecute sql ∈ (process_query env query).1 → (validate_sql sql).1 = true) ∧
    (containsWholeWord (pyToLower sql) "drop" = true →
      Step.DbExecute sql ∉ (process_query env query).1) := by
  constructor
  · exact process_query_exec_valid env query sql
  · intro hdrop hmem
    have hv := process_query_exec_valid env query sql hmem
    have hf := forbidden_invalidates sql "drop" (by decide) hdrop
    rw [hv] at hf
    cases hf

/-- A run in which the generative translator produces `SELECT 1` and the
database succeeds: used to instantiate C1. -/
def envC1 : Env := ⟨some (fun _ => .success "SELECT 1"), fun _ => .ok (some 7)⟩

/-- Witness for C1: in the `envC1` run on the query "с", the executed SQL
`SELECT 1` was validated, and a generated SQL containing `DROP` is never
executed. -/
theorem claim_C1_witness :
    (validate_sql "SELECT 1").1 = true ∧
    Step.DbExecute "SELECT 1; DROP TABLE videos" ∉ (process_query envC1 "с").1 :=
  ⟨(claim_C1_exec_only_validated envC1 "с" "SELECT 1").1 (by decide),
   (claim_C1_exec_only_validated envC1 "с" "SELECT 1; DROP TABLE videos").2 (by decide)⟩

/-- C8: a raw input longer than 500 characters fails with the `TooLong`
outcome before any other stage runs (the trace holds only the length
check, performed on the raw text), and texts of length at most 500 pass
the length check. -/
theorem claim_C8_too_long (env : Env) (query : String) :
    (500 < query.length →
      process_query env query = ([Step.LengthCheck], (0, false, MSG_too_long))) ∧
    (query.length ≤ 500 → validate_query_length query = true) := by
  constructor
  · intro h
    have hne : query ≠ "" := by
      intro h0
      subst h0
      simp at h
    have hlen : validate_query_length query = false := by
      simp only [validate_query_length, MAX_QUERY_LENGTH, decide_eq_false_iff_not]
      omega
    unfold process_query
    rw [if_neg hne, if_pos (by simp [hlen])]
  · intro h
    simp only [validate_query_length, MAX_QUERY_LENGTH]
    exact decide_eq_true h

/-- Witness for C8: a 501-character input is rejected as too long with
nothing else run, and a short text passes the length check. -/
theorem claim_C8_witness :
    process_query ⟨none, fun _ => .ok none⟩ (String.mk (List.replicate 501 'a'))
        = ([Step.LengthCheck], (0, false, MSG_too_long)) ∧
    validate_query_length "привет" = true :=
  ⟨(claim_C8_too_long ⟨none, fun _ => .ok none⟩ (String.mk (List.replicate 501 'a'))).1
      (by
        show 500 < (List.replicate 501 'a').length
        rw [List.length_replicate]
        omega),
   (claim_C8_too_long ⟨none, fun _ => .ok none⟩ "привет").2 (by decide)⟩

/-- C10 (implicit): an empty input is answered immediately with
`(0, false, unrecognized-intent message)` — the empty trace shows that no
stage (length check, sanitization, filtering, intent gate, translators,
validator, execution) is invoked, for every configuration of the external
collaborators. -/
theorem claim_C10_empty_input (env : Env) :
    process_query env "" = ([], (0, false, MSG_invalid_intent)) := by
  unfold process_query
  rw [if_pos rfl]

/-- SQL validity as claim C2 words it, for the refinement check: the only
difference from the code is the second condition, a plain case-insensitive
*string-prefix* test for `SELECT` (leading whitespace allowed) instead of
the code's standalone-word test `\bSELECT\b`. -/
def specValidSql (s : String) : Bool :=
  (s != "")
    && "SELECT".data.isPrefixOf ((pyStrip (pyToUpper s)).data.dropWhile Char.isWhitespace)
    && FORBIDDEN_WORDS.all (fun w => !containsWholeWord (pyToLower s) w)
    && ((s.data.filter (fun c => c = ';')).length ≤ 1)
    && !(containsSub s "--" || containsSub s "/*")

/-- C2 counterexample: `"SELECTED 1"` satisfies every rejection-free
condition of the claim as stated — in particular it *begins with* `SELECT`
— yet `validate_sql` rejects it, because the code requires `SELECT` to be
a standalone leading word (regex `^\s*SELECT\b`). -/
theorem claim_C2_counterexample :
    specValidSql "SELECTED 1" = true ∧ (validate_sql "SELECTED 1").1 = false :=
  ⟨by decide, by decide⟩

/-- C2 (amended): `validate_sql` accepts exactly the nonempty strings that,
uppercased and stripped, start with `SELECT` as a standalone word, contain
no deny-list token as a whole word, contain at most one `;`, and contain
no `--` or `/*`. -/
theorem claim_C2_validate_sql_characterization (s : String) :
    (validate_sql s).1
      = ((s != "")
          && selectWordStart (pyStrip (pyToUpper s)).data
          && FORBIDDEN_WORDS.all (fun w => !containsWholeWord (pyToLower s) w)
          && ((s.data.filter (fun c => c = ';')).length ≤ 1)
          && !(containsSub s "--" || containsSub s "/*")) := by
  unfold validate_sql
  by_cases h0 : s = ""
  · simp [h0]
  · rw [if_neg h0]
    by_cases hsel : selectWordStart (pyStrip (pyToUpper s)).data
    · rw [if_neg (by simp [hsel])]
      cases hf : findForbidden s with
      | some w =>
        have hmem : w ∈ FORBIDDEN_WORDS := List.mem_of_find?_eq_some hf
        have hword : containsWholeWord (pyToLower s) w = true := by
          have := List.find?_some hf
          simpa using this
        have hall : FORBIDDEN_WORDS.all (fun w => !containsWholeWord (pyToLower s) w) = false := by
          rw [← Bool.not_eq_true]
          simp only [List.all_eq_true, Bool.not_eq_true', not_forall]
          exact ⟨w, by simp [hmem, hword]⟩
        simp [h0, hsel, hall]
      | none =>
        have hall : FORBIDDEN_WORDS.all (fun w => !containsWholeWord (pyToLower s) w) = true := by
          rw [findForbidden, List.find?_eq_none] at hf
          simp only [List.all_eq_true]
          intro w hw
          simpa using hf w hw
        by_cases hsemi : (s.data.filter (fun c => c = ';')).length > 1
        · rw [if_pos hsemi]
          have : ¬((s.data.filter (fun c => c = ';')).length ≤ 1) := by omega
          simp [h0, hsel, hall, this]
        · rw [if_neg hsemi]
          have hle : (s.data.filter (fun c => c = ';')).length ≤ 1 := by omega
          by_cases hcom : containsSub s "--" || containsSub s "/*"
          · simp [h0, hsel, hall, hle, hcom]
          · simp [h0, hsel, hall, hle, hcom]
    · rw [if_pos (by simp [hsel])]
      simp [hsel]

/-- C3: the forbidden-word filter matches a text iff some deny-list token
occurs in it as a whole word, case-insensitively (so a token occurring
only inside a longer word does not match); and every non-empty text of
admissible length containing such a token makes the pipeline stop at the
forbidden-word scan with the failure outcome. -/
theorem claim_C3_forbidden_words (env : Env) (t : String) :
    (check_forbidden_words t = false
      ↔ ∃ w ∈ FORBIDDEN_WORDS, containsWholeWord (pyToLower t) w = true) ∧
    (t ≠ "" → validate_query_length t = true →
      (∃ w ∈ FORBIDDEN_WORDS, containsWholeWord (pyToLower t) w = true) →
      process_query env t
        = ([Step.LengthCheck, Step.Sanitize, Step.ForbiddenScan],
           (0, false, MSG_invalid_intent))) := by
  constructor
  · exact check_forbidden_false_iff t
  · intro h0 h1 hex
    have hc : check_forbidden_words t = false := (check_forbidden_false_iff t).2 hex
    have hcs : check_forbidden_words (sanitize_input t) = false :=
      check_forbidden_sanitize_false t hc
    unfold process_query
    rw [if_neg h0, if_neg (by simp [h1]), if_pos (by simp [hcs])]

/-- Witness for C3: a text containing `drop` as a whole word (amid extra
whitespace) stops at the forbidden-word scan. -/
theorem claim_C3_witness :
    process_query ⟨none, fun _ => .ok none⟩ "сколько  DROP видео"
      = ([Step.LengthCheck, Step.Sanitize, Step.ForbiddenScan],
         (0, false, MSG_invalid_intent)) :=
  (claim_C3_forbidden_words ⟨none, fun _ => .ok none⟩ "сколько  DROP видео").2
    (by decide) (by decide) (by decide)

/-- C4 counterexample: the rule-based translator yields no result on the
documented literal example of the views-threshold template, so that
template's SQL is never produced; only the total-count template exists. -/
theorem claim_C4_counterexample :
    parse_query "Сколько видео набрало больше 100000 просмотров?" = none ∧
    parse_query "Сколько всего видео есть в системе?" = some "SELECT COUNT(*) FROM videos" :=
  ⟨by decide, by decide⟩

/-- C4 (amended): `parse_query` implements exactly one template — an input
whose lowercased, stripped text contains "сколько всего видео" yields
byte-for-byte `SELECT COUNT(*) FROM videos`, and every other input yields
no result. -/
theorem claim_C4_rule_template (q : String) :
    (containsSub (pyStrip (pyToLower q)) "сколько всего видео" = true →
      parse_query q = some "SELECT COUNT(*) FROM videos") ∧
    (containsSub (pyStrip (pyToLower q)) "сколько всего видео" = false →
      parse_query q = none) := by
  constructor <;> intro h <;> simp [parse_query, h]

/-- Witness for C4: the single implemented template fires on its phrase and
nothing fires otherwise. -/
theorem claim_C4_witness :
    parse_query "сколько всего видео" = some "SELECT COUNT(*) FROM videos" ∧
    parse_query "привет" = none :=
  ⟨(claim_C4_rule_template "сколько всего видео").1 (by decide),
   (claim_C4_rule_template "привет").2 (by decide)⟩

theorem ruleFallback_parse_none (t0 : List Step) (q : String) (h : parse_query q = none) :
    ruleFallback t0 q = (t0 ++ [Step.ParserAttempt], none) := by
  unfold ruleFallback
  rw [h]

theorem parserAttempt_mem_ruleFallback (t0 : List Step) (q : String) :
    Step.ParserAttempt ∈ (ruleFallback t0 q).1 := by
  unfold ruleFallback
  cases hp : parse_query q with
  | none => simp
  | some r =>
    by_cases hrr : r = ""
    · simp [hrr]
    · simp [hrr]

theorem no_genChosen_in_ruleFallback (t0 : List Step) (q s : String)
    (h0 : Step.Chosen .generative s ∉ t0) :
    Step.Chosen .generative s ∉ (ruleFallback t0 q).1 := by
  unfold ruleFallback
  cases hp : parse_query q with
  | none => simp [h0]
  | some r =>
    by_cases hrr : r = ""
    · simp [hrr, h0]
    · simp [hrr, h0]

theorem translateStage_gen_some (env : Env) (q : String) (f : String → LLMResponse)
    (s : String) (hl : env.llm = some f) (hg : generate_sql (f q) = some s) (hs : s ≠ "") :
    translateStage env q
      = ([Step.GenAttempt, Step.Chosen .generative s], some (s, .generative)) := by
  unfold translateStage
  rw [hl]
  dsimp only
  rw [hg]
  simp [hs]

theorem translateStage_gen_falsy (env : Env) (q : String)
    (h : match env.llm with
         | some f => pyTruthy (generate_sql (f q)) = false
         | none => True) :
    translateStage env q
      = ruleFallback (match env.llm with | some _ => [Step.GenAttempt] | none => []) q := by
  unfold translateStage
  cases hl : env.llm with
  | none => rfl
  | some f =>
    rw [hl] at h
    dsimp only at h
    dsimp only
    cases hg : generate_sql (f q) with
    | none => rfl
    | some s =>
      rw [hg] at h
      simp only [pyTruthy, decide_eq_false_iff_not, not_not] at h
      simp [h]

theorem chosen_unique_translateStage (env : Env) (q s s' : String)
    (hg : Step.Chosen .generative s ∈ (translateStage env q).1)
    (hr : Step.Chosen .ruleBased s' ∈ (translateStage env q).1) : False := by
  cases hl : env.llm with
  | none =>
    have ht : translateStage env q = ruleFallback [] q := by
      unfold translateStage
      rw [hl]
    rw [ht] at hg
    exact no_genChosen_in_ruleFallback [] q s (by simp) hg
  | some f =>
    cases hgen : generate_sql (f q) with
    | none =>
      have ht : translateStage env q = ruleFallback [Step.GenAttempt] q := by
        unfold translateStage
        rw [hl]
        dsimp only
        rw [hgen]
      rw [ht] at hg
      exact no_genChosen_in_ruleFallback [Step.GenAttempt] q s (by simp) hg
    | some r =>
      by_cases hrr : r = ""
      · have ht : translateStage env q = ruleFallback [Step.GenAttempt] q := by
          unfold translateStage
          rw [hl]
          dsimp only
          rw [hgen]
          simp [hrr]
        rw [ht] at hg
        exact no_genChosen_in_ruleFallback [Step.GenAttempt] q s (by simp) hg
      · have ht := translateStage_gen_some env q f r hl hgen hrr
        rw [ht] at hr
        simp at hr

theorem process_query_gates (env : Env) (query : String)
    (h0 : query ≠ "") (h1 : validate_query_length query = true)
    (h2 : check_forbidden_words (sanitize_input query) = true)
    (h3 : validate_intent (sanitize_input query) = true) :
    process_query env query
      = match (translateStage env (sanitize_input query)).2 with
        | none =>
          (gateTrace ++ (translateStage env (sanitize_input query)).1,
            (0, false, MSG_invalid_sql))
        | some (sql, _src) =>
          (gateTrace ++ (translateStage env (sanitize_input query)).1 ++ (execStage env sql).1,
            (execStage env sql).2) := by
  unfold process_query
  rw [if_neg h0, if_neg (by simp [h1]), if_neg (by simp [h2]), if_neg (by simp [h3])]

theorem exec_trace_shape (env : Env) (sql : String) :
    ∀ x ∈ (execStage env sql).1, x = Step.DbExecute sql := by
  unfold execStage
  by_cases hv : (validate_sql sql).1
  · rw [if_pos hv]
    cases env.db sql with
    | ok r => simp
    | error e => simp
  · rw [if_neg hv]
    simp

theorem mem_process_iff_translate (env : Env) (query : String)
    (h0 : query ≠ "") (h1 : validate_query_length query = true)
    (h2 : check_forbidden_words (sanitize_input query) = true)
    (h3 : validate_intent (sanitize_input query) = true) (x : Step)
    (hgate : x ∉ gateTrace) (hexec : ∀ sql, x ≠ Step.DbExecute sql) :
    x ∈ (process_query env query).1
      ↔ x ∈ (translateStage env (sanitize_input query)).1 := by
  rw [process_query_gates env query h0 h1 h2 h3]
  cases htc : (translateStage env (sanitize_input query)).2 with
  | none => simp [List.mem_append, hgate]
  | some pair =>
    obtain ⟨sql, src'⟩ := pair
    simp only [List.mem_append]
    constructor
    · rintro ((h | h) | h)
      · exact absurd h hgate
      · exact h
      · exact absurd (exec_trace_shape env sql x h) (hexec sql)
    · intro h
      exact Or.inl (Or.inr h)

/-- C6: for every request that passes the gates, the generative translator
is attempted first: when it is configured and yields a nonempty result,
that result is the chosen SQL and the rule-based translator is never
consulted; when it yields nothing, the rule-based translator is attempted;
never do both win; and when neither yields a result the outcome is the
translation-failure reply. -/
theorem claim_C6_translator_priority (env : Env) (query : String)
    (h0 : query ≠ "") (h1 : validate_query_length query = true)
    (h2 : check_forbidden_words (sanitize_input query) = true)
    (h3 : validate_intent (sanitize_input query) = true) :
    (∀ f s, env.llm = some f → generate_sql (f (sanitize_input query)) = some s → s ≠ "" →
      Step.Chosen .generative s ∈ (process_query env query).1 ∧
      Step.ParserAttempt ∉ (process_query env query).1) ∧
    ((match env.llm with
      | some f => pyTruthy (generate_sql (f (sanitize_input query))) = false
      | none => True) →
      Step.ParserAttempt ∈ (process_query env query).1) ∧
    (∀ s s', Step.Chosen .generative s ∈ (process_query env query).1 →
      Step.Chosen .ruleBased s' ∈ (process_query env query).1 → False) ∧
    ((match env.llm with
      | some f => pyTruthy (generate_sql (f (sanitize_input query))) = false
      | none => True) →
      parse_query (sanitize_input query) = none →
      (process_query env query).2 = (0, false, MSG_invalid_sql) ∧
      ∀ src s, Step.Chosen src s ∉ (process_query env query).1) := by
  refine ⟨?_, ?_, ?_, ?_⟩
  · intro f s hl hg hs
    have ht := translateStage_gen_some env (sanitize_input query) f s hl hg hs
    constructor
    · refine (mem_process_iff_translate env query h0 h1 h2 h3 _ (by simp [gateTrace])
        (by intro sql; simp)).2 ?_
      rw [ht]
      simp
    · intro hmem
      have := (mem_process_iff_translate env query h0 h1 h2 h3 _ (by simp [gateTrace])
        (by intro sql; simp)).1 hmem
      rw [ht] at this
      simp at this
  · intro hfalsy
    have ht := translateStage_gen_falsy env (sanitize_input query) hfalsy
    refine (mem_process_iff_translate env query h0 h1 h2 h3 _ (by simp [gateTrace])
      (by intro sql; simp)).2 ?_
    rw [ht]
    exact parserAttempt_mem_ruleFallback _ _
  · intro s s' hg hr
    exact chosen_unique_translateStage env (sanitize_input query) s s'
      ((mem_process_iff_translate env query h0 h1 h2 h3 _ (by simp [gateTrace])
        (by intro sql; simp)).1 hg)
      ((mem_process_iff_translate env query h0 h1 h2 h3 _ (by simp [gateTrace])
        (by intro sql; simp)).1 hr)
  · intro hfalsy hparse
    have ht := translateStage_gen_falsy env (sanitize_input query) hfalsy
    have hrf := ruleFallback_parse_none
      (match env.llm with | some _ => [Step.GenAttempt] | none => [])
      (sanitize_input query) hparse
    have hnone : (translateStage env (sanitize_input query)).2 = none := by
      rw [ht, hrf]
    constructor
    · rw [process_query_gates env query h0 h1 h2 h3, hnone]
    · intro src s hmem
      have := (mem_process_iff_translate env query h0 h1 h2 h3 _ (by simp [gateTrace])
        (by intro sql; simp)).1 hmem
      rw [ht, hrf] at this
      rcases henv : env.llm with _ | f
      · rw [henv] at this
        simp at this
      · rw [henv] at this
        simp at this

/-- A run whose generative translator yields `SELECT 6`: used to
instantiate C6. -/
def envC6 : Env := ⟨some (fun _ => .success "SELECT 6"), fun _ => .ok (some 1)⟩

/-- Witness for C6: with a configured generative translator producing
`SELECT 6`, the generative source wins and the rule-based translator is
never attempted. -/
theorem claim_C6_witness :
    Step.Chosen .generative "SELECT 6" ∈ (process_query envC6 "с").1 ∧
    Step.ParserAttempt ∉ (process_query envC6 "с").1 :=
  (claim_C6_translator_priority envC6 "с" (by decide) (by decide) (by decide) (by decide)).1
    (fun _ => .success "SELECT 6") "SELECT 6" rfl (by decide) (by decide)

/-- C7: the generative adapter never raises: a timeout or request
exception, a non-success HTTP status, and a malformed response body all
yield no result, and a successful body is cleaned (code fences stripped,
whitespace trimmed) and returned only when the cleaned text starts with
`SELECT` case-insensitively — so every result is either `none` or a string
whose uppercased form starts with `SELECT`. -/
theorem claim_C7_generate_sql_shape :
    (∀ resp : LLMResponse, generate_sql resp = none ∨
      ∃ s, generate_sql resp = some s
        ∧ "SELECT".data.isPrefixOf (pyToUpper s).data = true) ∧
    generate_sql .timeout = none ∧
    generate_sql .malformed = none ∧
    (∀ n : Nat, generate_sql (.httpError n) = none) ∧
    (∀ content : String, generate_sql (.success content) = none ∨
      generate_sql (.success content) = some (cleanLLMOutput content)) := by
  refine ⟨?_, rfl, rfl, fun n => rfl, ?_⟩
  · intro resp
    cases resp with
    | timeout => exact Or.inl rfl
    | malformed => exact Or.inl rfl
    | httpError n => exact Or.inl rfl
    | success content =>
      unfold generate_sql
      by_cases hp : ("SELECT".data.isPrefixOf (pyToUpper (cleanLLMOutput content)).data) = true
      · right
        exact ⟨cleanLLMOutput content, by simp [hp], hp⟩
      · left
        simp [hp]
  · intro content
    unfold generate_sql
    by_cases hp : ("SELECT".data.isPrefixOf (pyToUpper (cleanLLMOutput content)).data) = true
    · right
      simp [hp]
    · left
      simp [hp]

theorem process_query_exec_output (env : Env) (query sql : String)
    (h : Step.DbExecute sql ∈ (process_query env query).1) :
    (process_query env query).2 = (execStage env sql).2 := by
  unfold process_query at h ⊢
  by_cases h0 : query = ""
  · rw [if_pos h0] at h
    simp at h
  · rw [if_neg h0] at h ⊢
    by_cases h1 : validate_query_length query
    · rw [if_neg (by simp [h1])] at h ⊢
      by_cases h2 : check_forbidden_words (sanitize_input query)
      · rw [if_neg (by simp [h2])] at h ⊢
        by_cases h3 : validate_intent (sanitize_input query)
        · rw [if_neg (by simp [h3])] at h ⊢
          cases htc : (translateStage env (sanitize_input query)).2 with
          | none =>
            rw [htc] at h
            simp only [List.mem_append] at h
            rcases h with h | h
            · simp [gateTrace] at h
            · exact absurd h (no_exec_in_translateStage env (sanitize_input query) sql)
          | some pair =>
            rw [htc] at h
            obtain ⟨chosenSql, src⟩ := pair
            replace h : Step.DbExecute sql ∈
                gateTrace ++ (translateStage env (sanitize_input query)).1
                  ++ (execStage env chosenSql).1 := h
            show (execStage env chosenSql).2 = (execStage env sql).2
            simp only [List.mem_append] at h
            rcases h with (h | h) | h
            · simp [gateTrace] at h
            · exact absurd h (no_exec_in_translateStage env (sanitize_input query) sql)
            · obtain ⟨hv, heq⟩ := exec_mem_execStage env chosenSql sql h
              rw [heq]
        · rw [if_pos (by simp [h3])] at h
          simp [gateTrace] at h
      · rw [if_pos (by simp [h2])] at h
        simp at h
    · rw [if_pos (by simp [h1])] at h
      simp at h

/-- A run whose generative translator yields `SELECT 1` and whose database
returns a null scalar: used to refute C9's message clause. -/
def envC9 : Env := ⟨some (fun _ => .success "SELECT 1"), fun _ => .ok none⟩

/-- C9 counterexample: on a successful execution returning a null scalar,
the value is mapped to 0 with success, but the message is the
stringification `"None"` of the raw scalar, not the stringification
`"0"` of the returned value that the claim requires. -/
theorem claim_C9_counterexample :
    (process_query envC9 "с").2 = (0, true, "None") ∧ ("None" : String) ≠ "0" :=
  ⟨by decide, by decide⟩

/-- C9 (amended): when execution is reached for `sql`, the returned triple
is `(execValue r, true, str(r))` on a scalar `r` — a null scalar maps to
the value 0 but the message is `str(None) = "None"`, not the stringified
value — and `(0, false, MSG_error)` on any execution fault, a fixed
message independent of the SQL text and of the exception detail. -/
theorem claim_C9_execution_mapping (env : Env) (query sql : String)
    (h : Step.DbExecute sql ∈ (process_query env query).1) :
    (process_query env query).2
      = (match env.db sql with
         | .ok r => (execValue r, true, pyStr r)
         | .error _ => (0, false, MSG_error)) ∧
    execValue none = 0 ∧ pyStr none = "None" := by
  refine ⟨?_, rfl, rfl⟩
  have hv := process_query_exec_valid env query sql h
  rw [process_query_exec_output env query sql h]
  unfold execStage
  rw [if_pos hv]
  cases env.db sql with
  | ok r => rfl
  | error e => rfl

/-- A run whose generative translator yields `SELECT 9` and whose database
returns the scalar 3: used to instantiate C9. -/
def envC9w : Env := ⟨some (fun _ => .success "SELECT 9"), fun _ => .ok (some 3)⟩

/-- Witness for C9 (amended): the execution mapping at a concrete run. -/
theorem claim_C9_witness :
    (process_query envC9w "с").2
      = (match envC9w.db "SELECT 9" with
         | .ok r => (execValue r, true, pyStr r)
         | .error _ => (0, false, MSG_error)) ∧
    execValue none = 0 ∧ pyStr none = "None" :=
  claim_C9_execution_mapping envC9w "с" "SELECT 9" (by decide)
